import Mathlib

/-!
Verification of the product-development-game rules engine (TypeScript source)
against its natural-language specification. The data model and the operations
are shallowly embedded from the source files: `src/models/gameState.ts`,
`src/models/card.ts`, `src/models/player.ts`, `src/rules/registry.ts`,
`src/rules/standard/actions.ts`, `src/rules/standard/setup.ts` (chaos rules),
`src/rules/standard/victory.ts` and `src/core/engine.ts`.

JavaScript numbers that the game code keeps integral are embedded as `Int`;
open `Record<string, any>` maps are embedded as association lists of a small
tagged value type covering the keys the embedded code actually reads; code
that throws is embedded in `Except String` or paired with an `Option String`
error component when partial mutation before the throw matters.
-/

/-- Card category, from `Category` in `src/rules/interfaces.ts`. -/
inductive Category where
  | technology
  | user
  | management
deriving DecidableEq

/-- Event kinds, from `GameEventType` in `src/rules/interfaces.ts`. -/
inductive GameEventType where
  | cardDrawn
  | cardPlayed
  | cardDiscarded
  | cardPlaced
  | resourceChanged
  | chaosChanged
  | playerTurnStarted
  | playerTurnEnded
  | gameStarted
  | gameEnded
  | victoryAchieved
  | defeatTriggered
deriving DecidableEq

/-- Tagged value for the open `Record<string, any>` metadata / payload maps;
only the shapes the embedded code reads are covered. -/
inductive MetaValue where
  | b (v : Bool)
  | i (v : Int)
  | s (v : String)
deriving DecidableEq

/-- An open string-keyed map, embedded as an association list; earlier
entries shadow later ones (spread-update prepends). -/
abbrev MetaMap := List (String × MetaValue)

/-- Update of a metadata map, `{ ...m, [k]: v }` in the source. -/
def MetaMap.setKey (m : MetaMap) (k : String) (v : MetaValue) : MetaMap :=
  (k, v) :: m

/-- Lookup of a metadata key (`m[k]`, `undefined` becomes `none`). -/
def MetaMap.getKey (m : MetaMap) (k : String) : Option MetaValue :=
  m.lookup k

/-- A card's play effect, from `PlayEffect` in `src/rules/interfaces.ts`. -/
structure PlayEffect where
  ruleId : String
  params : MetaMap
  description : String
deriving DecidableEq

/-- Card entity, from `src/models/card.ts`. -/
structure Card where
  id : String
  name : String
  description : String
  categories : List Category
  situationEffect : Int
  playEffect : Option PlayEffect
deriving DecidableEq

/-- `Card.hasCategory` from `src/models/card.ts`. -/
def Card.hasCategory (c : Card) (cat : Category) : Bool :=
  c.categories.contains cat

/-- `Card.isResourceCard`: positive situation effect. -/
def Card.isResourceCard (c : Card) : Bool :=
  c.situationEffect > 0

/-- `Card.isTroubleCard`: negative situation effect. -/
def Card.isTroubleCard (c : Card) : Bool :=
  c.situationEffect < 0

/-- Player entity, from `src/models/player.ts` (id, name, ordered hand). -/
structure Player where
  id : String
  name : String
  hand : List Card
deriving DecidableEq

/-- Removal of the first card with a given id from a list; returns the card
and the remaining list, mirroring `findIndex` + `filter(i ≠ index)`. -/
def removeFirstById : List Card → String → Option (Card × List Card)
  | [], _ => none
  | c :: rest, cardId =>
    if c.id = cardId then some (c, rest)
    else
      match removeFirstById rest cardId with
      | none => none
      | some (r, rest') => some (r, c :: rest')

/-- `Player.removeCardFromHand` from `src/models/player.ts`: the immutable
variant, returning the pair `{ newPlayer, removedCard }`; throws when the id
is not in the hand. -/
def Player.removeCardFromHand (p : Player) (cardId : String) :
    Except String (Player × Card) :=
  match removeFirstById p.hand cardId with
  | none => .error ("Card with id " ++ cardId ++ " not found in player's hand")
  | some (c, rest) => .ok ({ p with hand := rest }, c)

/-- `Player.addCardToHand` (immutable variant) from `src/models/player.ts`. -/
def Player.addCardToHand (p : Player) (c : Card) : Player :=
  { p with hand := p.hand ++ [c] }

/-- A game event, from `GameEvent` in `src/rules/interfaces.ts`. -/
structure GameEvent where
  etype : GameEventType
  timestamp : Int
  data : MetaMap
deriving DecidableEq

/-- The condition type stored under `params.type` of a victory / defeat
condition (`VictoryConditionType` / `DefeatConditionType` in the models). -/
inductive ConditionType where
  | balancedProduct
  | worldChangingInnovation
  | fireExtinguishing
  | deckDepletion
  | chaosOverflow
  | stagnationPenalty
  | custom (tag : String)
deriving DecidableEq

/-- A victory or defeat condition descriptor (`ruleId`, parameter map with
its `type` entry lifted into `ctype`, description). -/
structure Condition where
  ruleId : String
  ctype : ConditionType
  params : MetaMap
  description : String
deriving DecidableEq

/-- Workplace slots: one optional card per category,
`Record<Category, Card | null>` in `src/models/gameState.ts`. -/
structure Workplaces where
  technology : Option Card
  user : Option Card
  management : Option Card
deriving DecidableEq

/-- Workplace slot read for one category. -/
def Workplaces.slot (w : Workplaces) : Category → Option Card
  | .technology => w.technology
  | .user => w.user
  | .management => w.management

/-- Workplace slot update for one category. -/
def Workplaces.setSlot (w : Workplaces) : Category → Option Card → Workplaces
  | .technology, c => { w with technology := c }
  | .user, c => { w with user := c }
  | .management, c => { w with management := c }

/-- The aggregate game state, from `src/models/gameState.ts`. The
`activeRuleSet` reference is not embedded: no claim reads it, and the engine
dispatch models its rule list explicitly. -/
structure GameState where
  players : List Player
  currentPlayerIndex : Int
  deck : List Card
  discard : List Card
  workplaces : Workplaces
  completionLane : List Card
  chaosLevel : Int
  resources : Int
  victoryConditions : List Condition
  defeatConditions : List Condition
  lastChaosModifierPlayer : Option Int
  chaosNotModifiedForFullRound : Bool
  eventHistory : List GameEvent
  metadata : MetaMap
deriving DecidableEq

/-- `GameState.validateState` from `src/models/gameState.ts`: the
constructor-enforced invariants (player index in range, chaos level and
resources within `[0, 3]`). -/
def GameState.validState (s : GameState) : Bool :=
  0 ≤ s.currentPlayerIndex && s.currentPlayerIndex < s.players.length &&
  0 ≤ s.chaosLevel && s.chaosLevel ≤ 3 &&
  0 ≤ s.resources && s.resources ≤ 3

/-- The `new GameState(...)` constructor call performed by `newState`:
validation failure throws, success yields the value. -/
def GameState.checkState (s : GameState) : Except String GameState :=
  if s.validState then .ok s else .error "Invalid state"

/-- `Math.max(0, Math.min(3, x))`, the clamp used for resources and chaos. -/
def clamp03 (x : Int) : Int :=
  max 0 (min 3 x)

/-- `GameState.modifyResources` (immutable variant, gameState.ts lines
404-407): clamp the new value into `[0, 3]` and rebuild the state through the
validating constructor. -/
def GameState.modifyResources (s : GameState) (delta : Int) :
    Except String GameState :=
  GameState.checkState { s with resources := clamp03 (s.resources + delta) }

/-- `GameState.modifyChaosLevel` (immutable variant, gameState.ts lines
433-446): clamp into `[0, 3]`; only a non-zero `delta` updates
`lastChaosModifierPlayer` and clears `chaosNotModifiedForFullRound`. -/
def GameState.modifyChaosLevel (s : GameState) (delta : Int)
    (playerIndex : Int) : Except String GameState :=
  GameState.checkState
    { s with
      chaosLevel := clamp03 (s.chaosLevel + delta)
      lastChaosModifierPlayer :=
        if delta ≠ 0 then some playerIndex else s.lastChaosModifierPlayer
      chaosNotModifiedForFullRound :=
        if delta ≠ 0 then false else s.chaosNotModifiedForFullRound }

/-- `GameState.modifyResourcesMUTING`: in-place clamp returning the actual
change. -/
def GameState.modifyResourcesMUTING (s : GameState) (delta : Int) :
    GameState × Int :=
  let r := clamp03 (s.resources + delta)
  ({ s with resources := r }, r - s.resources)

/-- `GameState.modifyChaosLevelMUTING`: in-place clamp returning the actual
change; non-zero `delta` updates the chaos tracking fields. -/
def GameState.modifyChaosLevelMUTING (s : GameState) (delta : Int)
    (playerIndex : Int) : GameState × Int :=
  let c := clamp03 (s.chaosLevel + delta)
  ({ s with
      chaosLevel := c
      lastChaosModifierPlayer :=
        if delta ≠ 0 then some playerIndex else s.lastChaosModifierPlayer
      chaosNotModifiedForFullRound :=
        if delta ≠ 0 then false else s.chaosNotModifiedForFullRound },
    c - s.chaosLevel)

/-- `GameState.addEventMUTING`: append an event to the history. -/
def GameState.addEventMUTING (s : GameState) (e : GameEvent) : GameState :=
  { s with eventHistory := s.eventHistory ++ [e] }

/-- `GameState.setMetadataMUTING`: update one metadata key. -/
def GameState.setMetadataMUTING (s : GameState) (k : String) (v : MetaValue) :
    GameState :=
  { s with metadata := s.metadata.setKey k v }

/-- `GameState.discardCardsMUTING`: push cards onto the discard pile. -/
def GameState.discardCardsMUTING (s : GameState) (cs : List Card) : GameState :=
  { s with discard := s.discard ++ cs }

/-- `GameState.moveCardToCompletionLaneMUTING`: push one card onto the lane. -/
def GameState.moveCardToCompletionLaneMUTING (s : GameState) (c : Card) :
    GameState :=
  { s with completionLane := s.completionLane ++ [c] }

/-- A single call of one of the two clamped update operations (C1's
operation alphabet). -/
inductive ClampOp where
  | modRes (delta : Int)
  | modChaos (delta : Int) (playerIndex : Int)
deriving DecidableEq

/-- Apply one clamped update operation. -/
def applyClampOp (s : GameState) : ClampOp → Except String GameState
  | .modRes delta => s.modifyResources delta
  | .modChaos delta playerIndex => s.modifyChaosLevel delta playerIndex

/-- Apply a sequence of clamped update operations, stopping at the first
thrown error. -/
def applyClampOps (s : GameState) : List ClampOp → Except String GameState
  | [] => .ok s
  | op :: ops =>
    match applyClampOp s op with
    | .error e => .error e
    | .ok t => applyClampOps t ops

/-- Sample card used by concrete witnesses. -/
def cardA : Card :=
  { id := "c1", name := "カードA", description := "テスト",
    categories := [.technology], situationEffect := 1, playEffect := none }

/-- Sample player used by concrete witnesses. -/
def playerA : Player :=
  { id := "p1", name := "プレイヤー1", hand := [cardA] }

/-- Empty workplaces value. -/
def emptyWorkplaces : Workplaces :=
  { technology := none, user := none, management := none }

/-- A small valid game state used by concrete witnesses. -/
def sampleState : GameState :=
  { players := [playerA], currentPlayerIndex := 0, deck := [], discard := [],
    workplaces := emptyWorkplaces, completionLane := [], chaosLevel := 0,
    resources := 2, victoryConditions := [], defeatConditions := [],
    lastChaosModifierPlayer := none, chaosNotModifiedForFullRound := false,
    eventHistory := [], metadata := [] }

/-- A rule value as stored by the registry (`GameRule` interface); only the
identity matters to the registry. -/
structure GameRule where
  id : String
  name : String
deriving DecidableEq

/-- A rule set: an ordered, named collection of rule values. -/
structure RuleSet where
  id : String
  name : String
  rules : List GameRule
deriving DecidableEq

/-- `RuleRegistry` from `src/rules/registry.ts`: two id-keyed maps, embedded
as association lists. -/
structure RuleRegistry where
  rules : List (String × GameRule)
  ruleSets : List (String × RuleSet)
deriving DecidableEq

/-- `RuleRegistry.hasRule`: membership in the rule map. -/
def RuleRegistry.hasRule (reg : RuleRegistry) (ruleId : String) : Bool :=
  (reg.rules.lookup ruleId).isSome

/-- `RuleRegistry.hasRuleSet`: membership in the rule-set map. -/
def RuleRegistry.hasRuleSet (reg : RuleRegistry) (ruleSetId : String) : Bool :=
  (reg.ruleSets.lookup ruleSetId).isSome

/-- `RuleRegistry.registerRule`: throws on a duplicate rule id, otherwise
stores the rule; the pair carries the (possibly unchanged) registry and the
thrown message. -/
def RuleRegistry.registerRule (reg : RuleRegistry) (rule : GameRule) :
    RuleRegistry × Option String :=
  if reg.hasRule rule.id then
    (reg, some ("Rule with id " ++ rule.id ++ " is already registered"))
  else
    ({ reg with rules := reg.rules ++ [(rule.id, rule)] }, none)

/-- The `for (const rule of ruleSet.rules)` membership scan inside
`registerRuleSet`: the first rule of the set missing from the registry. -/
def firstUnregistered (reg : RuleRegistry) : List GameRule → Option GameRule
  | [] => none
  | r :: rs => if reg.hasRule r.id then firstUnregistered reg rs else some r

/-- `RuleRegistry.registerRuleSet`: throws on a duplicate rule-set id, then
throws on the first listed rule that was not registered individually,
otherwise stores the set. -/
def RuleRegistry.registerRuleSet (reg : RuleRegistry) (rs : RuleSet) :
    RuleRegistry × Option String :=
  if reg.hasRuleSet rs.id then
    (reg, some ("RuleSet with id " ++ rs.id ++ " is already registered"))
  else
    match firstUnregistered reg rs.rules with
    | some r =>
      (reg, some ("Rule with id " ++ r.id ++ " is not registered"))
    | none =>
      ({ reg with ruleSets := reg.ruleSets ++ [(rs.id, rs)] }, none)

/-- `RuleRegistry.getRule`: throws for an absent id. -/
def RuleRegistry.getRule (reg : RuleRegistry) (ruleId : String) :
    Except String GameRule :=
  match reg.rules.lookup ruleId with
  | none => .error ("Rule with id " ++ ruleId ++ " is not registered")
  | some r => .ok r

/-- `RuleRegistry.getRuleSet`: throws for an absent id. -/
def RuleRegistry.getRuleSet (reg : RuleRegistry) (ruleSetId : String) :
    Except String RuleSet :=
  match reg.ruleSets.lookup ruleSetId with
  | none => .error ("RuleSet with id " ++ ruleSetId ++ " is not registered")
  | some rs => .ok rs

/-- Sample rule for the registry witnesses. -/
def ruleW : GameRule := { id := "standard-play-card", name := "カードプレイ" }

/-- Sample unregistered rule for the registry witnesses. -/
def ruleX : GameRule := { id := "standard-draw", name := "標準手札補充" }

/-- Sample registered rule set for the registry witnesses. -/
def ruleSetW : RuleSet :=
  { id := "standard", name := "標準ルール", rules := [ruleW] }

/-- Sample rule set containing an unregistered rule. -/
def ruleSetX : RuleSet :=
  { id := "variant", name := "変種ルール", rules := [ruleW, ruleX] }

/-- Sample populated registry for the witnesses. -/
def regW : RuleRegistry :=
  { rules := [(ruleW.id, ruleW)], ruleSets := [(ruleSetW.id, ruleSetW)] }

/-- Action kinds, from `ActionType` in `src/rules/interfaces.ts`. -/
inductive ActionType where
  | drawCard
  | playCard
  | discardCard
  | placeCard
  | turnStart
  | turnEnd
  | modifyResources
  | modifyChaos
  | checkVictory
  | checkDefeat
  | payResources
deriving DecidableEq

/-- JavaScript `x || d` on an optional string (absent or empty falls back to
the default). -/
def jsOrStr (v : Option String) (d : String) : String :=
  match v with
  | some x => if x = "" then d else x
  | none => d

/-- Swap of two positions of a list, `[a[i], a[j]] = [a[j], a[i]]` in the
source's shuffle. -/
def swapList {α : Type} (a : List α) (i j : Nat) : List α :=
  match a[i]?, a[j]? with
  | some x, some y => (a.set i y).set j x
  | _, _ => a

/-- The Fisher-Yates loop of `GameState.shuffle`, iterating the swap index
downward; the random draw `Math.floor(Math.random() * (i + 1))` is supplied
by `rand` and reduced into the required range `[0, i]`. -/
def fyLoop {α : Type} (rand : Nat → Nat) : Nat → List α → List α
  | 0, a => a
  | i + 1, a => fyLoop rand i (swapList a (i + 1) (rand (i + 1) % (i + 2)))

/-- `GameState.shuffle` from `src/models/gameState.ts`. -/
def fisherYates {α : Type} (rand : Nat → Nat) (a : List α) : List α :=
  fyLoop rand (a.length - 1) a

/-- The draw loop of the immutable `GameState.drawCards` (gameState.ts lines
284-299): on an empty deck the discard pile is shuffled into a fresh deck
(stopping only when both piles are empty), then one card is popped from the
end of the deck. The two `none` fallbacks are unreachable: they correspond
to `pop()` on a deck just found non-empty. -/
def drawLoop (shuf : List Card → List Card) :
    Nat → List Card → List Card → List Card →
    List Card × List Card × List Card
  | 0, drawn, deck, disc => (drawn, deck, disc)
  | n + 1, drawn, deck, disc =>
    match deck with
    | [] =>
      match disc with
      | [] => (drawn, [], [])
      | d :: ds =>
        match (shuf (d :: ds)).getLast? with
        | none => (drawn, shuf (d :: ds), [])
        | some c =>
          drawLoop shuf n (drawn ++ [c]) (shuf (d :: ds)).dropLast []
    | e :: es =>
      match (e :: es).getLast? with
      | none => (drawn, e :: es, disc)
      | some c => drawLoop shuf n (drawn ++ [c]) (e :: es).dropLast disc

/-- `GameState.drawCards` (immutable variant, gameState.ts lines 275-305):
returns the drawn cards and the new state; non-positive counts draw
nothing. -/
def GameState.drawCards (shuf : List Card → List Card) (s : GameState)
    (count : Int) : List Card × GameState :=
  if count ≤ 0 then ([], s)
  else
    ((drawLoop shuf count.toNat [] s.deck s.discard).1,
     { s with
        deck := (drawLoop shuf count.toNat [] s.deck s.discard).2.1
        discard := (drawLoop shuf count.toNat [] s.deck s.discard).2.2 })

/-- Context of `ModifyChaosLevelRule.apply` (setup.ts lines 511-555): the
rule returns early unless both `currentAction` and `currentPlayer` are set;
`effectDelta` embeds `metadata.effectParams.delta` for the contexts, covered
by the claims, in which it is a number; `payloadReason` embeds
`currentAction.payload.reason`. -/
structure ModifyChaosCtx where
  state : GameState
  hasAction : Bool
  payloadReason : Option String
  currentPlayer : Option Player
  effectDelta : Int

/-- `ModifyChaosLevelRule.apply` from `src/rules/standard/setup.ts` lines
511-555: clamp via `modifyChaosLevelMUTING`; only when the actual change is
non-zero, reset the stagnation counter and record a `ChaosChanged` event,
and only inside that branch check for overflow (old level 3 and positive
delta) to record a `DefeatTriggered` event. -/
def ModifyChaosLevelRule.apply (now : Int) (ctx : ModifyChaosCtx) :
    GameState :=
  match ctx.currentPlayer with
  | none => ctx.state
  | some player =>
    if ¬ctx.hasAction then ctx.state
    else
      let s := ctx.state
      let delta := ctx.effectDelta
      let old := s.chaosLevel
      let r := s.modifyChaosLevelMUTING delta s.currentPlayerIndex
      let s1 := r.1
      let actualChange := r.2
      if actualChange ≠ 0 then
        let s2 := s1.setMetadataMUTING "roundsSinceChaosModified" (.i 0)
        let s3 := s2.addEventMUTING
          { etype := .chaosChanged, timestamp := now,
            data :=
              [("oldValue", .i old), ("newValue", .i s1.chaosLevel),
               ("change", .i actualChange), ("playerId", .s player.id),
               ("playerName", .s player.name),
               ("playerIndex", .i s.currentPlayerIndex),
               ("reason", .s (jsOrStr ctx.payloadReason "カード効果"))] }
        if old = 3 ∧ delta > 0 then
          s3.addEventMUTING
            { etype := .defeatTriggered, timestamp := now,
              data :=
                [("reason", .s "混沌オーバーフロー"),
                 ("details", .s "混沌レベルが3の状態でさらに増加した")] }
        else s3
      else s1

/-- A valid state already at chaos level 3 with an empty event history. -/
def chaos3State : GameState :=
  { sampleState with chaosLevel := 3 }

/-- Context for the overflow scenario: chaos level 3, requested delta +1. -/
def chaos3Ctx : ModifyChaosCtx :=
  { state := chaos3State, hasAction := true, payloadReason := none,
    currentPlayer := some playerA, effectDelta := 1 }

/-- Context of the chaos cascade rules (`ChaosLevel2Rule` /
`ChaosLevel3Rule`): the state, the dispatched action type and the
`metadata.preventChaosRecursion` flag (absent embeds as `false`). -/
structure CascadeCtx where
  state : GameState
  actionType : Option ActionType
  preventChaosRecursion : Bool

/-- `ChaosLevel3Rule.isApplicable` from `src/rules/standard/setup.ts` lines
409-416: chaos level 3, a card action, and the recursion guard flag not
set. -/
def ChaosLevel3Rule.isApplicable (ctx : CascadeCtx) : Bool :=
  ctx.state.chaosLevel = 3 &&
  (ctx.actionType = some ActionType.playCard ||
   ctx.actionType = some ActionType.placeCard ||
   ctx.actionType = some ActionType.discardCard) &&
  !ctx.preventChaosRecursion

/-- `ChaosLevel3Rule.apply` from `src/rules/standard/setup.ts` lines
422-485. The source calls the immutable `state.drawCards(2)`, which returns
the record `{ drawnCards, state }` and leaves the context state untouched;
the rule then reads `.length` on that record (`undefined`, so the
`=== 0` early return is not taken) and runs `for (const card of
drawnCards)`, which throws at once because the record is not iterable. No
draw, no nested effect invocation and no discard is ever performed. -/
def ChaosLevel3Rule.apply (shuf : List Card → List Card) (ctx : CascadeCtx) :
    GameState × Option String :=
  let _ := GameState.drawCards shuf ctx.state 2
  (ctx.state, some "TypeError: drawnCards is not iterable")

/-- Cascade context for the failing input of C5: chaos level 3, PlayCard
action, recursion flag clear, so the rule is selected. -/
def chaos3CascadeCtx : CascadeCtx :=
  { state := chaos3State, actionType := some ActionType.playCard,
    preventChaosRecursion := false }

/-- Second sample card for the draw witness. -/
def cardB : Card :=
  { id := "c2", name := "カードB", description := "テスト",
    categories := [.user], situationEffect := -1, playEffect := none }

/-- A state with one card in the deck and one in the discard pile. -/
def drawState : GameState :=
  { sampleState with deck := [cardA], discard := [cardB] }

/-- String form of a category (the enum values in the source). -/
def Category.jsName : Category → String
  | .technology => "TECHNOLOGY"
  | .user => "USER"
  | .management => "MANAGEMENT"

/-- `state.players[state.currentPlayerIndex]` (an out-of-range index yields
`undefined`). -/
def playersAt (l : List Player) (i : Int) : Option Player :=
  if i < 0 then none else l[i.toNat]?

/-- `GameState.addEvent` (immutable variant): rebuilds the state through the
validating constructor. -/
def GameState.addEvent (s : GameState) (e : GameEvent) :
    Except String GameState :=
  GameState.checkState { s with eventHistory := s.eventHistory ++ [e] }

/-- A JavaScript value flowing into a `Card`-typed parameter. Since the
migration, `Player.removeCardFromHand` returns the record
`{ newPlayer, removedCard }`, and `PlaceCardRule.apply` passes that record
on unchanged where a `Card` is expected. -/
inductive JsCardValue where
  | card (c : Card)
  | removeResult (p : Player) (c : Card)
deriving DecidableEq

/-- `GameState.placeCardInWorkplaceMUTING` (gameState.ts lines 344-352) on
the dynamic value actually passed by its caller: calling `hasCategory` on
the `{ newPlayer, removedCard }` record throws a `TypeError`. -/
def GameState.placeCardInWorkplaceMUTING (s : GameState) (v : JsCardValue)
    (cat : Category) : Except String (Option Card × GameState) :=
  match v with
  | .removeResult _ _ =>
    .error "TypeError: card.hasCategory is not a function"
  | .card c =>
    if c.hasCategory cat then
      .ok (s.workplaces.slot cat,
        { s with workplaces := s.workplaces.setSlot cat (some c) })
    else
      .error ("Card " ++ c.id ++ " does not have category " ++ cat.jsName)

/-- Context of `PlaceCardRule.apply` (actions.ts lines 98-228): the state,
the resolved `currentCard`, whether `currentAction` is present, and the
payload fields `cardId`, `category` and `pushOutOption`. -/
structure PlaceCtx where
  state : GameState
  currentCard : Option Card
  hasAction : Bool
  payloadCardId : String
  payloadCategory : Category
  pushOutOption : String

/-- `PlaceCardRule.apply` from `src/rules/standard/actions.ts` lines 98-210.
`validateInput` throws when `currentCard` is set or `currentAction` absent.
Then `currentPlayer.removeCardFromHand(cardId)` (the immutable variant,
line 102) throws for a missing card and otherwise returns the pair record
without touching the hand; line 105 passes that record to
`placeCardInWorkplaceMUTING`, whose `card.hasCategory(category)` call
throws a `TypeError` — so the success arm below, covering the resource
accounting and push-out handling of lines 107-210, is unreachable and that
code is dead. -/
def PlaceCardRule.apply (ctx : PlaceCtx) : GameState × Option String :=
  if ctx.currentCard.isSome then
    (ctx.state, some "currentCard must not be specified for PlaceCard action")
  else if ¬ctx.hasAction then
    (ctx.state, some "currentAction must be specified for PlaceCard action")
  else
    match playersAt ctx.state.players ctx.state.currentPlayerIndex with
    | none => (ctx.state, some "TypeError: cannot read hand of undefined")
    | some currentPlayer =>
      match currentPlayer.removeCardFromHand ctx.payloadCardId with
      | .error e => (ctx.state, some e)
      | .ok pair =>
        match ctx.state.placeCardInWorkplaceMUTING
            (.removeResult pair.1 pair.2) ctx.payloadCategory with
        | .error e => (ctx.state, some e)
        | .ok r => (r.2, none)

/-- The workplace card of the repository's own interaction test (effect 2,
Technology). -/
def workplaceCard : Card :=
  { id := "c9", name := "職場カード", description := "テスト",
    categories := [.technology], situationEffect := 2, playEffect := none }

/-- The state of the interaction test: hand card `cardA`, Technology slot
occupied by `workplaceCard`, resources 2. -/
def placeState : GameState :=
  { sampleState with
      workplaces := { emptyWorkplaces with technology := some workplaceCard } }

/-- PlaceCard context as the repository test builds it (direct rule call,
no resolved `currentCard`), with `pushOutOption = "lane"`. -/
def placeCtx : PlaceCtx :=
  { state := placeState, currentCard := none, hasAction := true,
    payloadCardId := "c1", payloadCategory := .technology,
    pushOutOption := "lane" }

/-- PlaceCard context as the engine builds it: `currentCard` resolved from
the hand. -/
def placeCtxEngine : PlaceCtx :=
  { placeCtx with currentCard := some cardA }

/-- Context of `PlayCardRule.apply` (actions.ts lines 26-73): the state, the
resolved card, whether `currentAction` is present, the payload `cardId`, and
`metadata.ruleRegistry` (optional chaining makes an absent registry skip the
effect lookup). -/
structure PlayCtx where
  state : GameState
  currentCard : Option Card
  hasAction : Bool
  payloadCardId : String
  registry : Option RuleRegistry

/-- `PlayCardRule.apply` from `src/rules/standard/actions.ts` lines 26-72,
parameterized by the nested effect-rule application. Line 34 calls the
immutable `removeCardFromHand` and discards the returned pair (the hand is
not changed, but a missing card still throws); line 37 calls the immutable
`addEvent` and discards the new state (no event is recorded); the effect
lookup goes through `RuleRegistry.getRule`, which throws for an
unregistered id, and only after the effect the card is pushed onto the
discard pile with `discardCardsMUTING`. -/
def PlayCardRule.apply
    (effectApply : GameRule → MetaMap → GameState → GameState × Option String)
    (now : Int) (ctx : PlayCtx) : GameState × Option String :=
  match ctx.currentCard with
  | none => (ctx.state, none)
  | some currentCard =>
    if ¬ctx.hasAction then (ctx.state, none)
    else
      match playersAt ctx.state.players ctx.state.currentPlayerIndex with
      | none => (ctx.state, some "TypeError: cannot read hand of undefined")
      | some currentPlayer =>
        match currentPlayer.removeCardFromHand ctx.payloadCardId with
        | .error e => (ctx.state, some e)
        | .ok _ =>
          match ctx.state.addEvent
              { etype := .cardPlayed, timestamp := now,
                data :=
                  [("playerId", .s currentPlayer.id),
                   ("playerName", .s currentPlayer.name),
                   ("playerIndex", .i ctx.state.currentPlayerIndex),
                   ("cardId", .s currentCard.id),
                   ("cardName", .s currentCard.name)] } with
          | _ =>
            match currentCard.playEffect with
            | none => (ctx.state.discardCardsMUTING [currentCard], none)
            | some eff =>
              match ctx.registry with
              | none => (ctx.state.discardCardsMUTING [currentCard], none)
              | some reg =>
                match reg.getRule eff.ruleId with
                | .error e => (ctx.state, some e)
                | .ok effectRule =>
                  match effectApply effectRule eff.params ctx.state with
                  | (s1, some e) => (s1, some e)
                  | (s1, none) => (s1.discardCardsMUTING [currentCard], none)

/-- A card whose play effect names a rule id that is not registered. -/
def effectCard : Card :=
  { id := "c3", name := "効果カード", description := "テスト",
    categories := [.management], situationEffect := 0,
    playEffect := some
      { ruleId := "nonexistent-rule", params := [], description := "効果" } }

/-- State whose current player holds `effectCard`. -/
def playEffectState : GameState :=
  { sampleState with
      players := [{ id := "p1", name := "プレイヤー1",
                    hand := [effectCard] }] }

/-- PlayCard context for the unregistered-effect scenario: the registry
`regW` does not contain `nonexistent-rule`. -/
def playEffectCtx : PlayCtx :=
  { state := playEffectState, currentCard := some effectCard,
    hasAction := true, payloadCardId := "c3", registry := some regW }

/-- JavaScript `x || d` on an optional numeric parameter (absent,
non-numeric or zero falls back to the default, as `0` is falsy). -/
def jsOrInt (v : Option MetaValue) (d : Int) : Int :=
  match v with
  | some (.i n) => if n = 0 then d else n
  | _ => d

/-- String form of a condition type (the enum values stored in
`params.type`). -/
def ConditionType.jsName : ConditionType → String
  | .balancedProduct => "BALANCED_PRODUCT"
  | .worldChangingInnovation => "WORLD_CHANGING_INNOVATION"
  | .fireExtinguishing => "FIRE_EXTINGUISHING"
  | .deckDepletion => "DECK_DEPLETION"
  | .chaosOverflow => "CHAOS_OVERFLOW"
  | .stagnationPenalty => "STAGNATION_PENALTY"
  | .custom tag => tag

/-- The per-category tally of `checkBalancedProductVictory`: each lane card
counts once for each occurrence of the category in its list. -/
def laneCategoryCount (lane : List Card) (cat : Category) : Nat :=
  (lane.map (fun c => c.categories.count cat)).sum

/-- `checkBalancedProductVictory` from `src/rules/standard/victory.ts`. -/
def checkBalancedProductVictory (s : GameState) (params : MetaMap) : Bool :=
  let required := jsOrInt (params.getKey "categoryCount") 2
  (laneCategoryCount s.completionLane .technology : Int) ≥ required &&
  (laneCategoryCount s.completionLane .user : Int) ≥ required &&
  (laneCategoryCount s.completionLane .management : Int) ≥ required

/-- `checkWorldChangingInnovationVictory` from
`src/rules/standard/victory.ts`. -/
def checkWorldChangingInnovationVictory (s : GameState) (params : MetaMap) :
    Bool :=
  let resourceValue := jsOrInt (params.getKey "resourceValue") 3
  let required := jsOrInt (params.getKey "cardCount") 5
  ((s.completionLane.filter
      (fun c => c.situationEffect = resourceValue)).length : Int) ≥ required

/-- `checkFireExtinguishingVictory` from `src/rules/standard/victory.ts`. -/
def checkFireExtinguishingVictory (s : GameState) (params : MetaMap) : Bool :=
  s.chaosLevel = jsOrInt (params.getKey "targetChaosLevel") 0

/-- The victory types handled by the built-in switch arms of
`CheckVictoryRule.apply` (every other type takes the custom-delegation
branch). -/
def victoryBuiltin : ConditionType → Bool
  | .balancedProduct => true
  | .worldChangingInnovation => true
  | .fireExtinguishing => true
  | _ => false

/-- The defeat types handled by the built-in switch arms of
`CheckDefeatRule.apply`. -/
def defeatBuiltin : ConditionType → Bool
  | .deckDepletion => true
  | .chaosOverflow => true
  | .stagnationPenalty => true
  | _ => false

/-- The switch of `CheckVictoryRule.apply` on one condition. The default
branch delegates to a registered custom rule through the registry and reads
`victoryAchieved` back from the sub-context; that delegation is abstracted
as the boolean oracle `custom` (the claims below are scoped to built-in
condition types, where the oracle is never consulted). -/
def victoryConditionSatisfied (custom : Condition → Bool) (s : GameState)
    (c : Condition) : Bool :=
  match c.ctype with
  | .balancedProduct => checkBalancedProductVictory s c.params
  | .worldChangingInnovation => checkWorldChangingInnovationVictory s c.params
  | .fireExtinguishing => checkFireExtinguishingVictory s c.params
  | _ => custom c

/-- The switch of `CheckDefeatRule.apply` on one condition; the custom
delegation is abstracted as for victory. -/
def defeatConditionSatisfied (custom : Condition → Bool) (s : GameState)
    (c : Condition) : Bool :=
  match c.ctype with
  | .deckDepletion => s.deck.length = 0 && s.discard.length = 0
  | .chaosOverflow =>
    s.eventHistory.any (fun e =>
      e.etype = GameEventType.defeatTriggered &&
      e.data.getKey "reason" = some (.s "混沌オーバーフロー"))
  | .stagnationPenalty => s.chaosNotModifiedForFullRound && s.chaosLevel ≥ 3
  | _ => custom c

/-- The `VictoryAchieved` event recorded for a satisfied condition. -/
def victoryEvent (now : Int) (c : Condition) : GameEvent :=
  { etype := .victoryAchieved, timestamp := now,
    data :=
      [("conditionType", .s c.ctype.jsName),
       ("conditionDescription", .s c.description)] }

/-- The `DefeatTriggered` event recorded for a satisfied condition. -/
def defeatEvent (now : Int) (c : Condition) : GameEvent :=
  { etype := .defeatTriggered, timestamp := now,
    data :=
      [("conditionType", .s c.ctype.jsName),
       ("conditionDescription", .s c.description)] }

/-- The mutations performed when a victory condition is satisfied: one
event appended, `gameOver` and `victoryAchieved` set. -/
def victoryOutcome (now : Int) (s : GameState) (c : Condition) : GameState :=
  ((s.addEventMUTING (victoryEvent now c)).setMetadataMUTING
    "gameOver" (.b true)).setMetadataMUTING "victoryAchieved" (.b true)

/-- The mutations performed when a defeat condition is satisfied. -/
def defeatOutcome (now : Int) (s : GameState) (c : Condition) : GameState :=
  ((s.addEventMUTING (defeatEvent now c)).setMetadataMUTING
    "gameOver" (.b true)).setMetadataMUTING "defeatTriggered" (.b true)

/-- The condition loop of `CheckVictoryRule.apply` (victory.ts lines 41-97):
the first satisfied condition triggers the outcome and breaks. -/
def checkVictoryLoop (custom : Condition → Bool) (now : Int) (s : GameState) :
    List Condition → GameState
  | [] => s
  | c :: rest =>
    if victoryConditionSatisfied custom s c then victoryOutcome now s c
    else checkVictoryLoop custom now s rest

/-- The condition loop of `CheckDefeatRule.apply` (victory.ts lines
186-251). -/
def checkDefeatLoop (custom : Condition → Bool) (now : Int) (s : GameState) :
    List Condition → GameState
  | [] => s
  | c :: rest =>
    if defeatConditionSatisfied custom s c then defeatOutcome now s c
    else checkDefeatLoop custom now s rest

/-- `CheckVictoryRule.apply` from `src/rules/standard/victory.ts` lines
31-98 (the empty-list early return is the loop on the empty list). -/
def CheckVictoryRule.apply (custom : Condition → Bool) (now : Int)
    (s : GameState) : GameState :=
  if s.victoryConditions.isEmpty then s
  else checkVictoryLoop custom now s s.victoryConditions

/-- `CheckDefeatRule.apply` from `src/rules/standard/victory.ts` lines
176-252. -/
def CheckDefeatRule.apply (custom : Condition → Bool) (now : Int)
    (s : GameState) : GameState :=
  if s.defeatConditions.isEmpty then s
  else checkDefeatLoop custom now s s.defeatConditions

/-- Specification form of the claim for victory: the result is determined
by the FIRST satisfied condition in list order, and an unsatisfied list
leaves the state unchanged. -/
def firstSatisfiedVictorySpec (custom : Condition → Bool) (now : Int)
    (s : GameState) : GameState :=
  match s.victoryConditions.find? (victoryConditionSatisfied custom s) with
  | none => s
  | some c => victoryOutcome now s c

/-- Specification form of the claim for defeat. -/
def firstSatisfiedDefeatSpec (custom : Condition → Bool) (now : Int)
    (s : GameState) : GameState :=
  match s.defeatConditions.find? (defeatConditionSatisfied custom s) with
  | none => s
  | some c => defeatOutcome now s c

/-- An unsatisfied built-in victory condition (empty lane). -/
def condBalanced : Condition :=
  { ruleId := "victory-balanced-product", ctype := .balancedProduct,
    params := [("categoryCount", .i 2)],
    description := "バランスの取れたプロダクト" }

/-- A satisfied built-in victory condition (chaos level 0). -/
def condFire : Condition :=
  { ruleId := "victory-fire-extinguishing", ctype := .fireExtinguishing,
    params := [("targetChaosLevel", .i 0)],
    description := "炎上鎮火" }

/-- A satisfied built-in defeat condition (deck and discard empty). -/
def condDeck : Condition :=
  { ruleId := "defeat-deck-depletion", ctype := .deckDepletion,
    params := [], description := "山札切れ" }

/-- A state carrying built-in victory and defeat conditions. -/
def victState : GameState :=
  { sampleState with
      victoryConditions := [condBalanced, condFire],
      defeatConditions := [condDeck] }

/-- Context the engine builds for rule selection (state plus the dispatched
action); `metadata.ruleRegistry` plays no role in the delivery claim. -/
structure EngineCtx where
  state : GameState
  actionType : ActionType

/-- A rule as the engine dispatch sees it: an applicability predicate over
the pre-pass context and an application consuming and producing the
authoritative state (the source mutates `context.state` in place). -/
structure EngineRule where
  isApplicable : EngineCtx → Bool
  apply : GameState → GameState

/-- `GameEngine.emitEvent` (engine.ts lines 167-181): deliver one event to
every listener registered for its type, in registration order; listeners
are identified by a number. -/
def emitEvent (listeners : List (GameEventType × Nat)) (e : GameEvent) :
    List (Nat × GameEvent) :=
  (listeners.filter (fun l => l.1 = e.etype)).map (fun l => (l.2, e))

/-- The drain step of `executeAction` (engine.ts lines 154-157):
`this.state.eventHistory.forEach(event => this.emitEvent(event))` — the
whole history, not only the newly appended part. -/
def drainEvents (listeners : List (GameEventType × Nat)) :
    List GameEvent → List (Nat × GameEvent)
  | [] => []
  | e :: rest => emitEvent listeners e ++ drainEvents listeners rest

/-- `GameEngine.executeAction` (engine.ts lines 103-161): filter the active
rule set's rules by `isApplicable` against the pre-pass context, apply the
selected rules in order threading the state, then drain the state's entire
event history to the listeners; returns the final state and the delivered
(listener, event) pairs in delivery order. -/
def GameEngine.executeAction (rules : List EngineRule)
    (listeners : List (GameEventType × Nat)) (a : ActionType)
    (s : GameState) : GameState × List (Nat × GameEvent) :=
  ((rules.filter (fun r => r.isApplicable ⟨s, a⟩)).foldl
      (fun st r => r.apply st) s,
   drainEvents listeners
     ((rules.filter (fun r => r.isApplicable ⟨s, a⟩)).foldl
       (fun st r => r.apply st) s).eventHistory)

/-- A pre-existing event, already in the history before the dispatch. -/
def oldEvent : GameEvent :=
  { etype := .cardPlayed, timestamp := -5, data := [("cardId", .s "c0")] }

/-- A state whose history already holds `oldEvent`. -/
def preState : GameState :=
  { sampleState with eventHistory := [oldEvent] }

/-- One listener registered for `CardPlayed`. -/
def listenersW : List (GameEventType × Nat) :=
  [(GameEventType.cardPlayed, 0)]

/-- An engine rule that appends one event via `addEventMUTING` on TurnEnd. -/
def appendingRule : EngineRule :=
  { isApplicable := fun ctx => ctx.actionType = ActionType.turnEnd,
    apply := fun st =>
      st.addEventMUTING
        { etype := .cardPlayed, timestamp := 7, data := [] } }

theorem clamp03_bounds (x : Int) : 0 ≤ clamp03 x ∧ clamp03 x ≤ 3 := by
  unfold clamp03
  omega

theorem clamp03_of_bounds (x : Int) (h0 : 0 ≤ x) (h3 : x ≤ 3) :
    clamp03 x = x := by
  unfold clamp03
  omega

theorem validState_iff (s : GameState) :
    s.validState = true ↔
      (0 ≤ s.currentPlayerIndex ∧ s.currentPlayerIndex < s.players.length ∧
       0 ≤ s.chaosLevel ∧ s.chaosLevel ≤ 3 ∧
       0 ≤ s.resources ∧ s.resources ≤ 3) := by
  simp [GameState.validState, Bool.and_eq_true, decide_eq_true_eq, and_assoc]

theorem checkState_ok (s : GameState) (h : s.validState = true) :
    s.checkState = .ok s := by
  simp [GameState.checkState, h]

theorem applyClampOp_ok (s : GameState) (h : s.validState = true)
    (op : ClampOp) :
    ∃ t, applyClampOp s op = .ok t ∧ t.validState = true := by
  rw [validState_iff] at h
  cases op with
  | modRes delta =>
    have hv : GameState.validState
        { s with resources := clamp03 (s.resources + delta) } = true := by
      rw [validState_iff]
      exact ⟨h.1, h.2.1, h.2.2.1, h.2.2.2.1,
        (clamp03_bounds _).1, (clamp03_bounds _).2⟩
    exact ⟨_, checkState_ok _ hv, hv⟩
  | modChaos delta playerIndex =>
    have hv : GameState.validState
        { s with
          chaosLevel := clamp03 (s.chaosLevel + delta)
          lastChaosModifierPlayer :=
            if delta ≠ 0 then some playerIndex else s.lastChaosModifierPlayer
          chaosNotModifiedForFullRound :=
            if delta ≠ 0 then false
            else s.chaosNotModifiedForFullRound } = true := by
      rw [validState_iff]
      exact ⟨h.1, h.2.1, (clamp03_bounds _).1, (clamp03_bounds _).2,
        h.2.2.2.2.1, h.2.2.2.2.2⟩
    exact ⟨_, checkState_ok _ hv, hv⟩

theorem applyClampOps_ok (s : GameState) (h : s.validState = true)
    (ops : List ClampOp) :
    ∃ t, applyClampOps s ops = .ok t ∧ t.validState = true := by
  induction ops generalizing s with
  | nil => exact ⟨s, rfl, h⟩
  | cons op ops ih =>
    obtain ⟨t, ht, hv⟩ := applyClampOp_ok s h op
    obtain ⟨u, hu, huv⟩ := ih t hv
    exact ⟨u, by simp [applyClampOps, ht, hu], huv⟩

/-- C1: from any state satisfying the constructor invariants, every sequence
of `modifyResources` / `modifyChaosLevel` calls with deltas of arbitrary sign
and magnitude succeeds (each update clamps into `[0, 3]` instead of failing),
and the resulting state satisfies `0 ≤ chaosLevel ≤ 3` and
`0 ≤ resources ≤ 3`. -/
theorem clamped_updates_preserve_bounds (s : GameState)
    (h : s.validState = true) (ops : List ClampOp) :
    ∃ t, applyClampOps s ops = .ok t ∧
      0 ≤ t.chaosLevel ∧ t.chaosLevel ≤ 3 ∧
      0 ≤ t.resources ∧ t.resources ≤ 3 := by
  obtain ⟨t, ht, hv⟩ := applyClampOps_ok s h ops
  rw [validState_iff] at hv
  exact ⟨t, ht, hv.2.2.1, hv.2.2.2.1, hv.2.2.2.2.1, hv.2.2.2.2.2⟩

/-- C1 witness: the bound theorem applied to a concrete valid state and a
concrete operation sequence with out-of-range deltas. -/
theorem clamped_updates_preserve_bounds_witness :
    ∃ t, applyClampOps sampleState
        [ClampOp.modRes 5, ClampOp.modChaos (-7) 0, ClampOp.modChaos 9 0] =
        .ok t ∧
      0 ≤ t.chaosLevel ∧ t.chaosLevel ≤ 3 ∧
      0 ≤ t.resources ∧ t.resources ≤ 3 :=
  clamped_updates_preserve_bounds sampleState (by decide) _

/-- C9: a zero-delta `modifyChaosLevel` call on a valid state succeeds and
changes neither `lastChaosModifierPlayer` nor `chaosNotModifiedForFullRound`
(nor the stored chaos level); the receiver is a value, so the original state
is untouched by construction. -/
theorem modifyChaosLevel_zero_delta_noop (s : GameState)
    (h : s.validState = true) (p : Int) :
    ∃ t, s.modifyChaosLevel 0 p = .ok t ∧
      t.lastChaosModifierPlayer = s.lastChaosModifierPlayer ∧
      t.chaosNotModifiedForFullRound = s.chaosNotModifiedForFullRound ∧
      t.chaosLevel = s.chaosLevel ∧ t.resources = s.resources := by
  have hb := (validState_iff s).mp h
  have hc : clamp03 s.chaosLevel = s.chaosLevel :=
    clamp03_of_bounds _ hb.2.2.1 hb.2.2.2.1
  refine ⟨s, ?_, rfl, rfl, rfl, rfl⟩
  simp [GameState.modifyChaosLevel, GameState.checkState, hc, h]

/-- C9 witness: the zero-delta theorem applied to a concrete valid state. -/
theorem modifyChaosLevel_zero_delta_noop_witness :
    ∃ t, sampleState.modifyChaosLevel 0 0 = .ok t ∧
      t.lastChaosModifierPlayer = sampleState.lastChaosModifierPlayer ∧
      t.chaosNotModifiedForFullRound =
        sampleState.chaosNotModifiedForFullRound ∧
      t.chaosLevel = sampleState.chaosLevel ∧
      t.resources = sampleState.resources :=
  modifyChaosLevel_zero_delta_noop sampleState (by decide) 0

theorem firstUnregistered_isSome (reg : RuleRegistry) (l : List GameRule)
    (h : ∃ r ∈ l, reg.hasRule r.id = false) :
    (firstUnregistered reg l).isSome = true := by
  induction l with
  | nil => simp at h
  | cons a l ih =>
    obtain ⟨r, hr, hf⟩ := h
    by_cases ha : reg.hasRule a.id = true
    · simp only [firstUnregistered, ha, if_true]
      rcases List.mem_cons.mp hr with h1 | h1
      · subst h1
        rw [ha] at hf
        exact Bool.noConfusion hf
      · exact ih ⟨r, h1, hf⟩
    · have ha' : reg.hasRule a.id = false := by
        cases hab : reg.hasRule a.id
        · rfl
        · exact absurd hab ha
      simp [firstUnregistered, ha']

/-- C7: registry referential integrity. `registerRule` fails on a duplicate
rule id; `registerRuleSet` fails on a duplicate set id and fails when some
listed rule is unregistered; every failure leaves the registry unchanged;
`getRule` / `getRuleSet` fail for absent ids. -/
theorem ruleRegistry_integrity (reg : RuleRegistry) (rule : GameRule)
    (rs rs2 : RuleSet) (ruleId ruleSetId : String) :
    (reg.hasRule rule.id = true →
      reg.registerRule rule =
        (reg, some ("Rule with id " ++ rule.id ++ " is already registered"))) ∧
    (reg.hasRuleSet rs.id = true →
      reg.registerRuleSet rs =
        (reg,
          some ("RuleSet with id " ++ rs.id ++ " is already registered"))) ∧
    (reg.hasRuleSet rs2.id = false →
      (∃ r ∈ rs2.rules, reg.hasRule r.id = false) →
      (reg.registerRuleSet rs2).1 = reg ∧
        (reg.registerRuleSet rs2).2.isSome = true) ∧
    (reg.hasRule ruleId = false →
      reg.getRule ruleId =
        .error ("Rule with id " ++ ruleId ++ " is not registered")) ∧
    (reg.hasRuleSet ruleSetId = false →
      reg.getRuleSet ruleSetId =
        .error ("RuleSet with id " ++ ruleSetId ++ " is not registered")) := by
  refine ⟨?_, ?_, ?_, ?_, ?_⟩
  · intro h
    simp [RuleRegistry.registerRule, h]
  · intro h
    simp [RuleRegistry.registerRuleSet, h]
  · intro h hex
    have hs := firstUnregistered_isSome reg rs2.rules hex
    rcases ho : firstUnregistered reg rs2.rules with _ | r
    · rw [ho] at hs
      cases hs
    · constructor <;> simp [RuleRegistry.registerRuleSet, h, ho]
  · intro h
    have : reg.rules.lookup ruleId = none := by
      rcases hl : reg.rules.lookup ruleId with _ | r
      · rfl
      · rw [RuleRegistry.hasRule, hl] at h
        cases h
    simp [RuleRegistry.getRule, this]
  · intro h
    have : reg.ruleSets.lookup ruleSetId = none := by
      rcases hl : reg.ruleSets.lookup ruleSetId with _ | r
      · rfl
      · rw [RuleRegistry.hasRuleSet, hl] at h
        cases h
    simp [RuleRegistry.getRuleSet, this]

/-- C7 witness: every branch of the integrity theorem discharged on a
concrete registry. -/
theorem ruleRegistry_integrity_witness :
    regW.registerRule ruleW =
      (regW,
        some ("Rule with id " ++ ruleW.id ++ " is already registered")) ∧
    regW.registerRuleSet ruleSetW =
      (regW,
        some ("RuleSet with id " ++ ruleSetW.id ++ " is already registered")) ∧
    ((regW.registerRuleSet ruleSetX).1 = regW ∧
      (regW.registerRuleSet ruleSetX).2.isSome = true) ∧
    regW.getRule "standard-draw" =
      .error ("Rule with id " ++ "standard-draw" ++ " is not registered") ∧
    regW.getRuleSet "variant" =
      .error ("RuleSet with id " ++ "variant" ++ " is not registered") :=
  ⟨(ruleRegistry_integrity regW ruleW ruleSetW ruleSetX "standard-draw"
      "variant").1 (by decide),
   (ruleRegistry_integrity regW ruleW ruleSetW ruleSetX "standard-draw"
      "variant").2.1 (by decide),
   (ruleRegistry_integrity regW ruleW ruleSetW ruleSetX "standard-draw"
      "variant").2.2.1 (by decide) ⟨ruleX, by decide, by decide⟩,
   (ruleRegistry_integrity regW ruleW ruleSetW ruleSetX "standard-draw"
      "variant").2.2.2.1 (by decide),
   (ruleRegistry_integrity regW ruleW ruleSetW ruleSetX "standard-draw"
      "variant").2.2.2.2 (by decide)⟩

/-- C3 (code evaluated at the failing input): at chaos level 3 a further
positive delta yields `actualChange = 0`, so the overflow branch nested
under `actualChange !== 0` is dead: no `DefeatTriggered` event is appended
(the event history is unchanged), while the stored level stays clamped
at 3. -/
theorem chaos_overflow_event_not_emitted :
    (ModifyChaosLevelRule.apply 0 chaos3Ctx).eventHistory =
      chaos3State.eventHistory ∧
    (ModifyChaosLevelRule.apply 0 chaos3Ctx).eventHistory.filter
      (fun e => e.etype = GameEventType.defeatTriggered) = [] ∧
    (ModifyChaosLevelRule.apply 0 chaos3Ctx).chaosLevel = 3 ∧
    chaos3State.chaosLevel = 3 ∧ chaos3Ctx.effectDelta = 1 := by
  decide

/-- C5: the recursion guard in `isApplicable` does hold (a context with
`metadata.preventChaosRecursion` set is never applicable), and the rule is
selected at chaos level 3 for a card action; but `apply` throws a
`TypeError` immediately (the record returned by the immutable `drawCards`
is iterated as an array), so the cascade, including its guarded nested
effect invocations, never executes. -/
theorem chaosLevel3_guard_and_crash :
    (∀ ctx : CascadeCtx, ctx.preventChaosRecursion = true →
      ChaosLevel3Rule.isApplicable ctx = false) ∧
    ChaosLevel3Rule.isApplicable chaos3CascadeCtx = true ∧
    (∀ shuf, ChaosLevel3Rule.apply shuf chaos3CascadeCtx =
      (chaos3State, some "TypeError: drawnCards is not iterable")) :=
  ⟨fun ctx h => by simp [ChaosLevel3Rule.isApplicable, h],
   by decide,
   fun shuf => rfl⟩

/-- C5 witness: the guard conjunct discharged on a concrete context with the
flag set, and the crash conjunct at a concrete shuffle function. -/
theorem chaosLevel3_guard_and_crash_witness :
    ChaosLevel3Rule.isApplicable
      { state := chaos3State, actionType := some ActionType.playCard,
        preventChaosRecursion := true } = false ∧
    ChaosLevel3Rule.apply (fun l => l) chaos3CascadeCtx =
      (chaos3State, some "TypeError: drawnCards is not iterable") :=
  ⟨chaosLevel3_guard_and_crash.1 _ rfl, chaosLevel3_guard_and_crash.2.2 _⟩

theorem cons_set_perm {α : Type} (m : Nat) (t : List α) (x y : α)
    (h : t[m]? = some y) : (y :: t.set m x).Perm (x :: t) := by
  induction m generalizing t with
  | zero =>
    cases t with
    | nil => simp at h
    | cons b r =>
      simp only [List.getElem?_cons_zero, Option.some_inj] at h
      subst h
      simp only [List.set_cons_zero]
      exact List.Perm.swap x b r
  | succ k ih =>
    cases t with
    | nil => simp at h
    | cons b r =>
      simp only [List.getElem?_cons_succ] at h
      simp only [List.set_cons_succ]
      exact ((List.Perm.swap b y _).trans ((ih r h).cons b)).trans
        (List.Perm.swap x b r)

theorem set_set_swap_perm {α : Type} (a : List α) :
    ∀ (i j : Nat) (x y : α), a[i]? = some x → a[j]? = some y →
      ((a.set i y).set j x).Perm a := by
  induction a with
  | nil =>
    intro i j x y hx _
    simp at hx
  | cons c t ih =>
    intro i j x y hx hy
    cases i with
    | zero =>
      simp only [List.getElem?_cons_zero, Option.some_inj] at hx
      subst hx
      cases j with
      | zero =>
        simp only [List.getElem?_cons_zero, Option.some_inj] at hy
        simp [List.set_cons_zero]
      | succ m =>
        simp only [List.getElem?_cons_succ] at hy
        simp only [List.set_cons_zero, List.set_cons_succ]
        exact cons_set_perm m t c y hy
    | succ n =>
      simp only [List.getElem?_cons_succ] at hx
      cases j with
      | zero =>
        simp only [List.getElem?_cons_zero, Option.some_inj] at hy
        subst hy
        simp only [List.set_cons_succ, List.set_cons_zero]
        exact cons_set_perm n t c x hx
      | succ m =>
        simp only [List.getElem?_cons_succ] at hy
        simp only [List.set_cons_succ]
        exact (ih n m x y hx hy).cons c

theorem swapList_perm {α : Type} (a : List α) (i j : Nat) :
    (swapList a i j).Perm a := by
  unfold swapList
  split
  next x y hx hy => exact set_set_swap_perm a i j x y hx hy
  next => exact List.Perm.refl a

theorem fyLoop_perm {α : Type} (rand : Nat → Nat) :
    ∀ (i : Nat) (a : List α), (fyLoop rand i a).Perm a
  | 0, a => List.Perm.refl a
  | i + 1, a =>
    (fyLoop_perm rand i _).trans (swapList_perm a (i + 1) _)

theorem fisherYates_perm {α : Type} (rand : Nat → Nat) (a : List α) :
    (fisherYates rand a).Perm a :=
  fyLoop_perm rand _ a

theorem pop_append_perm {α : Type} (d rest l : List α) (c0 : α)
    (h : rest ++ [c0] = l) : ((d ++ [c0]) ++ rest).Perm (d ++ l) := by
  rw [List.append_assoc]
  exact List.Perm.append_left d (List.perm_append_comm.trans (h ▸ List.Perm.refl _))

theorem drawLoop_perm (shuf : List Card → List Card)
    (hshuf : ∀ l, (shuf l).Perm l) :
    ∀ (n : Nat) (d k c : List Card),
      ((drawLoop shuf n d k c).1 ++ (drawLoop shuf n d k c).2.1 ++
        (drawLoop shuf n d k c).2.2).Perm (d ++ k ++ c) := by
  intro n
  induction n with
  | zero =>
    intro d k c
    exact List.Perm.refl _
  | succ n ih =>
    intro d k c
    cases k with
    | nil =>
      cases c with
      | nil => simp [drawLoop]
      | cons e es =>
        simp only [drawLoop]
        rcases hg : (shuf (e :: es)).getLast? with _ | c0
        · have hnil : shuf (e :: es) = [] := List.getLast?_eq_none_iff.mp hg
          have hlen := (hshuf (e :: es)).length_eq
          rw [hnil] at hlen
          simp at hlen
        · have hl : (shuf (e :: es)).dropLast ++ [c0] = shuf (e :: es) :=
            List.dropLast_append_getLast? c0 (Option.mem_def.mpr hg)
          have base : (((d ++ [c0]) ++ (shuf (e :: es)).dropLast) ++
              ([] : List Card)).Perm ((d ++ []) ++ (e :: es)) := by
            rw [List.append_nil, List.append_nil]
            exact (pop_append_perm d (shuf (e :: es)).dropLast
              (shuf (e :: es)) c0 hl).trans
              (List.Perm.append_left d (hshuf (e :: es)))
          exact (ih (d ++ [c0]) (shuf (e :: es)).dropLast []).trans base
    | cons e es =>
      simp only [drawLoop]
      rcases hg : (e :: es).getLast? with _ | c0
      · have hnil : (e :: es) = ([] : List Card) :=
          List.getLast?_eq_none_iff.mp hg
        cases hnil
      · have hl : (e :: es).dropLast ++ [c0] = e :: es :=
          List.dropLast_append_getLast? c0 (Option.mem_def.mpr hg)
        have base : (((d ++ [c0]) ++ (e :: es).dropLast) ++ c).Perm
            ((d ++ (e :: es)) ++ c) :=
          (pop_append_perm d (e :: es).dropLast (e :: es) c0 hl).append
            (List.Perm.refl c)
        exact (ih (d ++ [c0]) (e :: es).dropLast c).trans base

theorem drawLoop_length (shuf : List Card → List Card)
    (hshuf : ∀ l, (shuf l).Perm l) :
    ∀ (n : Nat) (d k c : List Card),
      (drawLoop shuf n d k c).1.length =
        d.length + min n (k.length + c.length) := by
  intro n
  induction n with
  | zero =>
    intro d k c
    simp [drawLoop]
  | succ n ih =>
    intro d k c
    cases k with
    | nil =>
      cases c with
      | nil => simp [drawLoop]
      | cons e es =>
        simp only [drawLoop]
        rcases hg : (shuf (e :: es)).getLast? with _ | c0
        · have hnil : shuf (e :: es) = [] := List.getLast?_eq_none_iff.mp hg
          have hlen := (hshuf (e :: es)).length_eq
          rw [hnil] at hlen
          simp at hlen
        · have hlen := (hshuf (e :: es)).length_eq
          rw [ih (d ++ [c0]) (shuf (e :: es)).dropLast []]
          simp only [List.length_append, List.length_cons, List.length_nil,
            List.length_dropLast]
          rw [hlen]
          simp only [List.length_cons]
          omega
    | cons e es =>
      simp only [drawLoop]
      rcases hg : (e :: es).getLast? with _ | c0
      · have hnil : (e :: es) = ([] : List Card) :=
          List.getLast?_eq_none_iff.mp hg
        cases hnil
      · rw [ih (d ++ [c0]) (e :: es).dropLast c]
        simp only [List.length_append, List.length_cons, List.length_nil,
          List.length_dropLast]
        omega

/-- C10: for `count ≥ 1`, the immutable `drawCards` (with the source's
Fisher-Yates shuffle driven by an arbitrary random stream) draws exactly
`min count (|deck| + |discard|)` cards (hence at most `count`, continuing
through a reshuffle of a non-empty discard pile, and stopping early only
when both piles are exhausted); the multiset of drawn cards plus the new
deck and discard equals the old deck plus discard (no card created or
lost); every other field of the state is unchanged, and the receiver itself
is a value, so `s` is untouched. -/
theorem drawCards_spec (rand : Nat → Nat) (s : GameState) (count : Int)
    (h : 1 ≤ count) :
    (GameState.drawCards (fisherYates rand) s count).1.length =
      min count.toNat (s.deck.length + s.discard.length) ∧
    ((GameState.drawCards (fisherYates rand) s count).1 ++
      (GameState.drawCards (fisherYates rand) s count).2.deck ++
      (GameState.drawCards (fisherYates rand) s count).2.discard).Perm
      (s.deck ++ s.discard) ∧
    ((GameState.drawCards (fisherYates rand) s count).1.length <
        count.toNat →
      (GameState.drawCards (fisherYates rand) s count).2.deck = [] ∧
      (GameState.drawCards (fisherYates rand) s count).2.discard = []) ∧
    (GameState.drawCards (fisherYates rand) s count).2.players = s.players ∧
    (GameState.drawCards (fisherYates rand) s count).2.completionLane =
      s.completionLane ∧
    (GameState.drawCards (fisherYates rand) s count).2.chaosLevel =
      s.chaosLevel ∧
    (GameState.drawCards (fisherYates rand) s count).2.resources =
      s.resources ∧
    (GameState.drawCards (fisherYates rand) s count).2.eventHistory =
      s.eventHistory := by
  have hc : ¬count ≤ 0 := by omega
  have hshuf : ∀ l : List Card, ((fisherYates rand l)).Perm l :=
    fisherYates_perm rand
  have hlen := drawLoop_length (fisherYates rand) hshuf count.toNat []
    s.deck s.discard
  have hperm := drawLoop_perm (fisherYates rand) hshuf count.toNat []
    s.deck s.discard
  simp only [List.length_nil, Nat.zero_add, List.nil_append] at hlen hperm
  simp only [GameState.drawCards, hc, if_false]
  refine ⟨hlen, hperm, ?_, trivial, trivial, trivial, trivial, trivial⟩
  intro hlt
  rw [hlen] at hlt
  have htotal : s.deck.length + s.discard.length < count.toNat := by omega
  have hmin : min count.toNat (s.deck.length + s.discard.length) =
      s.deck.length + s.discard.length := by omega
  have hple := hperm.length_eq
  simp only [List.length_append] at hple
  rw [hlen, hmin] at hple
  constructor
  · exact List.length_eq_zero.mp (by omega)
  · exact List.length_eq_zero.mp (by omega)

/-- C10 witness: the draw theorem applied with a concrete random stream to a
state whose deck is exhausted mid-draw, forcing a reshuffle. -/
theorem drawCards_spec_witness :
    (GameState.drawCards (fisherYates (fun _ => 0)) drawState 3).1.length =
      min (3 : Int).toNat
        (drawState.deck.length + drawState.discard.length) ∧
    ((GameState.drawCards (fisherYates (fun _ => 0)) drawState 3).1 ++
      (GameState.drawCards (fisherYates (fun _ => 0)) drawState 3).2.deck ++
      (GameState.drawCards (fisherYates (fun _ => 0))
        drawState 3).2.discard).Perm
      (drawState.deck ++ drawState.discard) ∧
    ((GameState.drawCards (fisherYates (fun _ => 0))
        drawState 3).1.length < (3 : Int).toNat →
      (GameState.drawCards (fisherYates (fun _ => 0)) drawState 3).2.deck =
        [] ∧
      (GameState.drawCards (fisherYates (fun _ => 0))
        drawState 3).2.discard = []) ∧
    (GameState.drawCards (fisherYates (fun _ => 0)) drawState 3).2.players =
      drawState.players ∧
    (GameState.drawCards (fisherYates (fun _ => 0))
      drawState 3).2.completionLane = drawState.completionLane ∧
    (GameState.drawCards (fisherYates (fun _ => 0))
      drawState 3).2.chaosLevel = drawState.chaosLevel ∧
    (GameState.drawCards (fisherYates (fun _ => 0)) drawState 3).2.resources =
      drawState.resources ∧
    (GameState.drawCards (fisherYates (fun _ => 0))
      drawState 3).2.eventHistory = drawState.eventHistory :=
  drawCards_spec (fun _ => 0) drawState 3 (by decide)

/-- C2 (code evaluated at the failing input): on the repository's own
swap-to-lane scenario the rule throws before any push-out handling — with
the engine-resolved `currentCard` it throws in `validateInput`, and without
it the `{ newPlayer, removedCard }` record passed to
`placeCardInWorkplaceMUTING` raises a `TypeError`; in both cases the state
is unchanged: nothing is placed, paid, moved to the lane or discarded. -/
theorem placeCard_throws_before_pushout :
    PlaceCardRule.apply placeCtx =
      (placeState, some "TypeError: card.hasCategory is not a function") ∧
    PlaceCardRule.apply placeCtxEngine =
      (placeState,
        some "currentCard must not be specified for PlaceCard action") ∧
    placeState.resources = 2 ∧
    placeState.workplaces.technology = some workplaceCard ∧
    (playerA.hand.map Card.id) = ["c1"] := by
  decide

/-- C4 (code evaluated at the failing input): playing a card whose effect
rule id is unregistered makes `RuleRegistry.getRule` throw, so the rule does
not complete: the error propagates, the card is never moved to the discard
pile, and the state is returned unchanged (the hand removal and the
CardPlayed event were immutable calls whose results the code discards). -/
theorem playCard_unregistered_effect_throws :
    ∀ effectApply now,
      PlayCardRule.apply effectApply now playEffectCtx =
        (playEffectState,
          some ("Rule with id nonexistent-rule is not registered")) ∧
      playEffectState.discard = [] ∧
      (playEffectState.players.map (fun p => p.hand.map Card.id)) =
        [["c3"]] := by
  intro effectApply now
  exact ⟨rfl, rfl, rfl⟩

theorem checkVictoryLoop_eq_find (custom : Condition → Bool) (now : Int)
    (s : GameState) (l : List Condition) :
    checkVictoryLoop custom now s l =
      (match l.find? (victoryConditionSatisfied custom s) with
       | none => s
       | some c => victoryOutcome now s c) := by
  induction l with
  | nil => rfl
  | cons c rest ih =>
    by_cases h : victoryConditionSatisfied custom s c = true
    · simp [checkVictoryLoop, List.find?_cons, h]
    · have h' : victoryConditionSatisfied custom s c = false := by
        cases hb : victoryConditionSatisfied custom s c
        · rfl
        · exact absurd hb h
      simp [checkVictoryLoop, List.find?_cons, h', ih]

theorem checkDefeatLoop_eq_find (custom : Condition → Bool) (now : Int)
    (s : GameState) (l : List Condition) :
    checkDefeatLoop custom now s l =
      (match l.find? (defeatConditionSatisfied custom s) with
       | none => s
       | some c => defeatOutcome now s c) := by
  induction l with
  | nil => rfl
  | cons c rest ih =>
    by_cases h : defeatConditionSatisfied custom s c = true
    · simp [checkDefeatLoop, List.find?_cons, h]
    · have h' : defeatConditionSatisfied custom s c = false := by
        cases hb : defeatConditionSatisfied custom s c
        · rfl
        · exact absurd hb h
      simp [checkDefeatLoop, List.find?_cons, h', ih]

/-- C6: over built-in condition types, both check rules evaluate the
state's condition list in order and are fully described by their FIRST
satisfied condition: exactly one `VictoryAchieved` / `DefeatTriggered`
event is appended, `gameOver` and the corresponding outcome flag are set,
conditions after the first satisfied one do not influence the result, and
an unsatisfied list leaves the state unchanged (no event, no flags). -/
theorem check_rules_first_satisfied_short_circuit
    (customV customD : Condition → Bool) (now : Int) (s : GameState)
    (_hv : ∀ c ∈ s.victoryConditions, victoryBuiltin c.ctype = true)
    (_hd : ∀ c ∈ s.defeatConditions, defeatBuiltin c.ctype = true) :
    CheckVictoryRule.apply customV now s =
      firstSatisfiedVictorySpec customV now s ∧
    CheckDefeatRule.apply customD now s =
      firstSatisfiedDefeatSpec customD now s := by
  constructor
  · rw [CheckVictoryRule.apply, firstSatisfiedVictorySpec,
      checkVictoryLoop_eq_find]
    cases hvc : s.victoryConditions with
    | nil => simp
    | cons c rest => simp [hvc]
  · rw [CheckDefeatRule.apply, firstSatisfiedDefeatSpec,
      checkDefeatLoop_eq_find]
    cases hdc : s.defeatConditions with
    | nil => simp
    | cons c rest => simp [hdc]

/-- C6 witness: the short-circuit theorem discharged on a concrete state
whose second victory condition and first defeat condition are satisfied. -/
theorem check_rules_first_satisfied_short_circuit_witness :
    CheckVictoryRule.apply (fun _ => false) 0 victState =
      firstSatisfiedVictorySpec (fun _ => false) 0 victState ∧
    CheckDefeatRule.apply (fun _ => false) 0 victState =
      firstSatisfiedDefeatSpec (fun _ => false) 0 victState :=
  check_rules_first_satisfied_short_circuit (fun _ => false) (fun _ => false)
    0 victState (by decide) (by decide)

theorem drainEvents_append (listeners : List (GameEventType × Nat))
    (h1 h2 : List GameEvent) :
    drainEvents listeners (h1 ++ h2) =
      drainEvents listeners h1 ++ drainEvents listeners h2 := by
  induction h1 with
  | nil => rfl
  | cons e rest ih => simp [drainEvents, ih]

/-- C8 counterexample: a dispatch with no applicable rule appends nothing,
yet the pre-existing history entry is delivered to its listener — so the
delivered events are not exactly the entries appended during the dispatch. -/
theorem executeAction_redelivers_old_events :
    (GameEngine.executeAction [] listenersW ActionType.turnStart
      preState).1.eventHistory = preState.eventHistory ∧
    (GameEngine.executeAction [] listenersW ActionType.turnStart
      preState).2 = [(0, oldEvent)] := by
  decide

/-- C8 amended: the drain delivers the final state's ENTIRE event history —
first every entry that existed before the dispatch, then the entries the
selected rules appended — each to the listeners registered for its type, in
append order. -/
theorem executeAction_delivers_full_history (rules : List EngineRule)
    (listeners : List (GameEventType × Nat)) (a : ActionType) (s : GameState)
    (appended : List GameEvent)
    (h : (GameEngine.executeAction rules listeners a s).1.eventHistory =
      s.eventHistory ++ appended) :
    (GameEngine.executeAction rules listeners a s).2 =
      drainEvents listeners s.eventHistory ++
        drainEvents listeners appended := by
  show drainEvents listeners
    (GameEngine.executeAction rules listeners a s).1.eventHistory = _
  rw [h, drainEvents_append]

/-- C8 amended witness: a dispatch whose single applicable rule appends one
event; the delivery contains the old entry first, then the new one. -/
theorem executeAction_delivers_full_history_witness :
    (GameEngine.executeAction [appendingRule] listenersW ActionType.turnEnd
      preState).2 =
      drainEvents listenersW preState.eventHistory ++
        drainEvents listenersW
          [{ etype := .cardPlayed, timestamp := 7, data := [] }] :=
  executeAction_delivers_full_history [appendingRule] listenersW
    ActionType.turnEnd preState
    [{ etype := .cardPlayed, timestamp := 7, data := [] }] (by decide)
